import Mathlib

/-
Verification of the O3DE Project Manager excerpt:
GemRepoAddDialog (Code/Tools/ProjectManager/Source/GemRepo/GemRepoAddDialog.cpp/.h)
and the GemInfo metadata record (Code/Tools/ProjectManager/Source/GemCatalog/GemInfo.h).

The dialog-side definitions are a shallow embedding of the constructor logic of
GemRepoAddDialog.cpp: reading a cached JSON index file, extracting a named array
field, populating a list model, and mirroring selection / path-field updates.
Qt facilities used by the code (QJsonValue, QJsonObject, QJsonDocument, QFile,
QStandardItemModel, QLineEdit) are modelled by their documented semantics.
-/

set_option autoImplicit false

namespace O3DE.ProjectManager

/-! ## JSON value model (QJsonValue) -/

/-- Model of a Qt `QJsonValue` tree. JSON numbers are modelled as `Int`:
no claim depends on fractional numeric values, only on whether a value is
a JSON string. -/
inductive JsonValue where
  | null
  | bool (b : Bool)
  | num (n : Int)
  | str (s : String)
  | arr (elems : List JsonValue)
  | obj (fields : List (String × JsonValue))
deriving Repr, Inhabited

/-- Semantics of `QJsonValue::toString()` with no default argument:
the contained string for a string value, and a default-constructed
(empty) `QString` for every other kind of value. -/
def JsonValue.toStringQt : JsonValue → String
  | .str s => s
  | _ => ""

/-- Semantics of `QJsonValue::isArray()`. -/
def JsonValue.isArrayQt : JsonValue → Bool
  | .arr _ => true
  | _ => false

/-- Semantics of `QJsonValue::toArray()` with no default argument. -/
def JsonValue.toArrayQt : JsonValue → List JsonValue
  | .arr elems => elems
  | _ => []

/-- Semantics of `QJsonValue::isString()`. -/
def JsonValue.isStringQt : JsonValue → Bool
  | .str _ => true
  | _ => false

/-! ## QJsonObject model -/

/-- A `QJsonObject` is a key/value map; modelled as an association list.
First-match lookup; `fromJson` never produces duplicate keys, so the
choice of match does not matter for the claims. -/
def jsonObjectGet : List (String × JsonValue) → String → Option JsonValue
  | [], _ => none
  | (k, v) :: rest, key => if k = key then some v else jsonObjectGet rest key

/-- Semantics of `QJsonObject::contains(key)`. -/
def jsonObjectContains (fields : List (String × JsonValue)) (key : String) : Bool :=
  (jsonObjectGet fields key).isSome

/-- Semantics of `QJsonObject::operator[](key)`: the stored value when the
key is present, and `QJsonValue(Undefined)` otherwise.  The undefined value
is modelled by `JsonValue.null`: the code only asks `isArray()` of it, and
both Undefined and Null answer `false`. -/
def jsonObjectValue (fields : List (String × JsonValue)) (key : String) : JsonValue :=
  (jsonObjectGet fields key).getD .null

/-! ## Cache file model -/

/-- Content of a cache file that could be opened: either bytes that are not
a valid JSON document, or a well-formed document with the given value tree. -/
inductive FileContent where
  | malformed
  | wellFormed (doc : JsonValue)
deriving Repr

/-- State of one cache file as seen by the dialog constructor: the path
returned by `PythonBindingsInterface::Get()->GetCacheFile(url)` may name a
missing file, an existing file that fails to open, or a readable file with
some content. -/
inductive CacheFileState where
  | missing
  | unreadable
  | readable (content : FileContent)
deriving Repr

/-- Semantics of `QFile::open(ReadOnly | Text)` followed by `readAll()`:
succeeds with the content exactly when the file exists and is readable. -/
def openCacheFile : CacheFileState → Option FileContent
  | .readable c => some c
  | _ => none

/-- Semantics of `QJsonDocument::fromJson`: a parsed document for
well-formed input, and the null document (modelled `none`) otherwise. -/
def fromJson : FileContent → Option JsonValue
  | .wellFormed doc => some doc
  | .malformed => none

/-- Semantics of `QJsonDocument::object()`: the top-level object's fields
when the document holds an object, and an empty `QJsonObject` when the
document is null or holds an array. -/
def documentObject : Option JsonValue → List (String × JsonValue)
  | some (.obj fields) => fields
  | _ => []

/-- Embedding of the list-population block of the `GemRepoAddDialog`
constructor (GemRepoAddDialog.cpp lines 92-110 for `fieldName = "curated"`,
lines 155-173 for `fieldName = "uncurated"`): open the cache file, parse it,
take the top-level object, and if it contains `fieldName` holding an array,
append one row per element with text `value.toString()`; otherwise the
model receives no rows. -/
def loadRepoList (fieldName : String) (st : CacheFileState) : List String :=
  match openCacheFile st with
  | none => []
  | some jsonData =>
    let document := fromJson jsonData
    let jsonObject := documentObject document
    if jsonObjectContains jsonObject fieldName
        && (jsonObjectValue jsonObject fieldName).isArrayQt then
      ((jsonObjectValue jsonObject fieldName).toArrayQt).map JsonValue.toStringQt
    else
      []

/-- The four non-fatal failure kinds of the cache-loading path, as the
error-handling taxonomy names them. -/
inductive CacheError where
  | missingFile
  | unreadableFile
  | malformedJson
  | missingArrayField
deriving Repr, DecidableEq

/-- Classifies a cache-file state: `some e` when loading the list for
`fieldName` encounters failure kind `e`, `none` when the file opens,
parses, and carries the expected array field. -/
def cacheError (fieldName : String) : CacheFileState → Option CacheError
  | .missing => some .missingFile
  | .unreadable => some .unreadableFile
  | .readable .malformed => some .malformedJson
  | .readable (.wellFormed doc) =>
    let jsonObject := documentObject (some doc)
    if jsonObjectContains jsonObject fieldName
        && (jsonObjectValue jsonObject fieldName).isArrayQt then
      none
    else
      some .missingArrayField

/-! ## Dialog state model -/

/-- Observable state of a constructed `GemRepoAddDialog`: the rows of the
two `QStandardItemModel`s, the current selection of each `QListView`
(`SingleSelection` mode, so at most one row), and the text of the
`FormFolderBrowseEditWidget`'s line edit. -/
structure DialogState where
  curatedList : List String
  uncuratedList : List String
  curatedSel : Option Nat
  uncuratedSel : Option Nat
  repoPathText : String
deriving Repr, DecidableEq

/-- Embedding of `GemRepoAddDialog::GemRepoAddDialog`: both list models are
populated from their cache files, nothing is selected, and the path field
is created with initial text `""` (the second constructor argument of
`FormFolderBrowseEditWidget` at GemRepoAddDialog.cpp line 52). -/
def initDialog (curatedSt uncuratedSt : CacheFileState) : DialogState :=
  { curatedList := loadRepoList "curated" curatedSt
    uncuratedList := loadRepoList "uncurated" uncuratedSt
    curatedSel := none
    uncuratedSel := none
    repoPathText := "" }

/-- Semantics of `index.data(Qt::DisplayRole).toString()` for row `i` of a
list model: the row's text for a valid index, and `""` (invalid `QVariant`
converted to `QString`) otherwise. -/
def rowTextQt (rows : List String) (i : Nat) : String :=
  rows.getD i ""

/-- Embedding of selecting row `i` of the curated `QListView`
(GemRepoAddDialog.cpp lines 112-121): the curated selection model now holds
`i`, and the `selectionChanged` handler writes the current index's display
text into the path field's line edit.  The uncurated view has its own
`QItemSelectionModel`, which this does not touch. -/
def selectCurated (s : DialogState) (i : Nat) : DialogState :=
  { s with curatedSel := some i, repoPathText := rowTextQt s.curatedList i }

/-- Embedding of selecting row `i` of the uncurated `QListView`
(GemRepoAddDialog.cpp lines 175-184), symmetric to `selectCurated`. -/
def selectUncurated (s : DialogState) (i : Nat) : DialogState :=
  { s with uncuratedSel := some i, repoPathText := rowTextQt s.uncuratedList i }

/-- Semantics of `QLineEdit::setText` on the path field: replaces the text
wholesale (no trimming or normalization). -/
def setPathText (s : DialogState) (t : String) : DialogState :=
  { s with repoPathText := t }

/-- Embedding of `GemRepoAddDialog::GetRepoPath` (GemRepoAddDialog.cpp
lines 210-213): `return m_repoPath->lineEdit()->text();`. -/
def GetRepoPath (s : DialogState) : String :=
  s.repoPathText

/-! ## GemInfo data model (GemInfo.h) -/

/-- The `GemInfo::Platform` flag enum (GemInfo.h lines 24-32): five single-bit
flags `Android = 1 << 0`, `iOS = 1 << 1`, `Linux = 1 << 2`, `macOS = 1 << 3`,
`Windows = 1 << 4`. -/
inductive Platform where
  | Android
  | iOS
  | Linux
  | macOS
  | Windows
deriving Repr, DecidableEq

/-- The bit position of a platform flag, per the `1 << k` enumerator values. -/
def Platform.bitIndex : Platform → Nat
  | .Android => 0
  | .iOS => 1
  | .Linux => 2
  | .macOS => 3
  | .Windows => 4

/-- The numeric enumerator value of a platform flag; a `GemInfo::Platforms`
bitset (`Q_DECLARE_FLAGS`) is modelled as a `Nat` bitmask. -/
def Platform.flag (p : Platform) : Nat :=
  1 <<< p.bitIndex

/-- The `GemInfo::GemOrigin` flag enum (GemInfo.h lines 46-52). -/
inductive GemOrigin where
  | Open3DEngine
  | Local
  | Remote
deriving Repr, DecidableEq

/-- The `GemInfo::DownloadStatus` enum (GemInfo.h lines 56-64). -/
inductive DownloadStatus where
  | UnknownDownloadStatus
  | NotDownloaded
  | Downloading
  | DownloadSuccessful
  | DownloadFailed
  | Downloaded
deriving Repr, DecidableEq

/-- The `GemInfo` record with the member initializers of GemInfo.h lines
82-140.  `QString` members default-construct to the empty string and
`QStringList` to the empty list unless an initializer says otherwise;
`Platforms`/`Types` bitsets (`Nat` bitmasks here) value-initialize to 0.
The two `QPixmap` members (`m_iconPixMap`, `m_iconUriPixMap`) are decoded
images with no observable content relevant to any claim and are omitted. -/
structure GemInfo where
  m_path : String := ""
  m_name : String := "Unknown Gem Name"
  m_displayName : String := ""
  m_origin : String := "Unknown Creator"
  m_gemOrigin : GemOrigin := .Local
  m_originURL : String := ""
  m_iconPath : String := ""
  m_iconPreviewPath : String := ""
  m_iconUri : String := ""
  m_iconUriPreviewPath : String := ""
  m_isAdded : Bool := false
  m_isEngineGem : Bool := false
  m_isProjectGem : Bool := false
  m_summary : String := "No summary provided."
  m_platforms : Nat := 0
  m_types : Nat := 0
  m_downloadStatus : DownloadStatus := .UnknownDownloadStatus
  m_features : List String := []
  m_requirement : String := ""
  m_licenseText : String := ""
  m_licenseLink : String := ""
  m_directoryLink : String := ""
  m_documentationLink : String := ""
  m_repoUri : String := ""
  m_version : String := "Unknown Version"
  m_lastUpdatedDate : String := "Unknown Date"
  m_binarySizeInKB : Int := 0
  m_dependencies : List String := []
  m_compatibleEngines : List String := []
  m_incompatibleEngineDependencies : List String := []
  m_incompatibleGemDependencies : List String := []
  m_downloadSourceUri : String := ""
  m_sourceControlUri : String := ""
  m_sourceControlRef : String := ""
deriving Repr, DecidableEq

/-- A `GemInfo()` default-constructed record: every member takes its
initializer from GemInfo.h. -/
def defaultGemInfo : GemInfo := {}

/-- Modelled from the spec: the implementation file GemInfo.cpp defining
`GemInfo::GetPlatformString` is not in the excerpt (GemInfo.h line 34 only
declares it).  Per the spec it returns the canonical human-readable label
for exactly one platform flag, the labels being the platform names
Android, iOS, Linux, macOS, Windows. -/
def GetPlatformString : Platform → String
  | .Android => "Android"
  | .iOS => "iOS"
  | .Linux => "Linux"
  | .macOS => "macOS"
  | .Windows => "Windows"

/-- Modelled from the spec: the implementation file GemInfo.cpp defining
`GemInfo::GetPlatformFromString` is not in the excerpt (GemInfo.h line 67
only declares it).  Per the spec it returns the single platform flag whose
label matches the text, consistently with `GetPlatformString`, and no bits
set for unrecognized text. -/
def GetPlatformFromString (platformText : String) : Nat :=
  if platformText = "Android" then Platform.Android.flag
  else if platformText = "iOS" then Platform.iOS.flag
  else if platformText = "Linux" then Platform.Linux.flag
  else if platformText = "macOS" then Platform.macOS.flag
  else if platformText = "Windows" then Platform.Windows.flag
  else 0

/-- Whether a string is one of the five recognized platform labels. -/
def recognizedPlatformLabel (s : String) : Bool :=
  s = "Android" || s = "iOS" || s = "Linux" || s = "macOS" || s = "Windows"

/-- Modelled from the spec: the implementation file GemInfo.cpp defining
`GemInfo::GetPlatformsFromStringList` is not in the excerpt (GemInfo.h
line 69 only declares it).  Per the spec it is the bitwise union of
`GetPlatformFromString` over the entries, accumulated across the list;
unrecognized entries contribute no bits and raise no error. -/
def GetPlatformsFromStringList (platformStrings : List String) : Nat :=
  platformStrings.foldl (fun acc s => acc ||| GetPlatformFromString s) 0

/-- Modelled from the spec: the implementation file GemInfo.cpp defining
`GemInfo::IsPlatformSupported` is not in the excerpt (GemInfo.h line 73
only declares it).  Per the spec it is true iff the corresponding bit is
set in the instance's platform bitset: the C++ truthiness of
`m_platforms & platform`. -/
def IsPlatformSupported (g : GemInfo) (p : Platform) : Bool :=
  g.m_platforms &&& p.flag != 0

/-- Modelled from the spec: the implementation file GemInfo.cpp defining
`GemInfo::IsCompatible` is not in the excerpt (GemInfo.h line 76 only
declares it).  Per the spec it is true iff none of the
incompatible-engine/gem-dependency lists are non-empty. -/
def IsCompatible (g : GemInfo) : Bool :=
  g.m_incompatibleEngineDependencies.isEmpty && g.m_incompatibleGemDependencies.isEmpty

/-! ## Helper lemmas -/

/-- When the top-level object has `fieldName` holding an array, the populated
list is exactly the elementwise `QJsonValue::toString()` image of the array. -/
theorem loadRepoList_obj_arr (fieldName : String) (fs : List (String × JsonValue))
    (vs : List JsonValue) (h : jsonObjectGet fs fieldName = some (.arr vs)) :
    loadRepoList fieldName (.readable (.wellFormed (.obj fs)))
      = vs.map JsonValue.toStringQt := by
  simp [loadRepoList, openCacheFile, fromJson, documentObject, jsonObjectContains,
    jsonObjectValue, h, JsonValue.isArrayQt, JsonValue.toArrayQt]

/-- Every cache-error state yields an empty list. -/
theorem loadRepoList_of_cacheError (fieldName : String) (st : CacheFileState)
    (e : CacheError) (h : cacheError fieldName st = some e) :
    loadRepoList fieldName st = [] := by
  cases st with
  | missing => rfl
  | unreadable => rfl
  | readable c =>
    cases c with
    | malformed => rfl
    | wellFormed doc =>
      by_cases hb : (jsonObjectContains (documentObject (some doc)) fieldName
          && (jsonObjectValue (documentObject (some doc)) fieldName).isArrayQt) = true
      · simp [cacheError, hb] at h
      · simp only [Bool.not_eq_true] at hb
        simp [loadRepoList, openCacheFile, fromJson, hb]

/-- `QJsonValue::toString()` of a non-string value is the empty string. -/
theorem toStringQt_of_not_string (v : JsonValue) (h : v.isStringQt = false) :
    v.toStringQt = "" := by
  cases v with
  | str s => exact absurd h (by simp [JsonValue.isStringQt])
  | null => rfl
  | bool b => rfl
  | num n => rfl
  | arr elems => rfl
  | obj fields => rfl

/-- Folding bitwise-or from the left over an accumulator equals the
accumulator or-ed with the right fold of the mapped list. -/
theorem foldl_or_eq_acc (l : List String) (acc : Nat) :
    l.foldl (fun a s => a ||| GetPlatformFromString s) acc
      = acc ||| (l.map GetPlatformFromString).foldr (fun a b => a ||| b) 0 := by
  induction l generalizing acc with
  | nil => simp
  | cons x xs ih =>
    simp only [List.foldl_cons, List.map_cons, List.foldr_cons, ih]
    rw [Nat.lor_assoc]

/-! ## Claim theorems -/

/-- C1: on construction, for each cache file that opens and parses as a JSON
document whose top-level object holds an array under the expected field name,
the list model gets one entry per array element, each entry's text being the
element's string value, in array order; in particular a file containing the
object with field "curated" mapped to the array of strings "a", "b" yields
exactly the entries "a" then "b" (see the witness). -/
theorem list_population_matches_array (fieldName : String)
    (fs : List (String × JsonValue)) (strs : List String)
    (h : jsonObjectGet fs fieldName = some (.arr (strs.map .str))) :
    loadRepoList fieldName (.readable (.wellFormed (.obj fs))) = strs := by
  have hid : JsonValue.toStringQt ∘ JsonValue.str = id := by
    funext s
    rfl
  rw [loadRepoList_obj_arr fieldName fs _ h, List.map_map, hid, List.map_id]

theorem list_population_matches_array_witness :
    loadRepoList "curated"
        (.readable (.wellFormed (.obj [("curated", .arr [.str "a", .str "b"])])))
      = ["a", "b"] :=
  list_population_matches_array "curated"
    [("curated", .arr [.str "a", .str "b"])] ["a", "b"] rfl

/-- C2: for every state of the two cache files that is an error of any of the
four kinds (missing file, unreadable file, malformed JSON, or valid JSON
lacking the expected array field), dialog construction succeeds with the
affected list simply empty, identically for all four kinds, and the dialog
remains usable for manual path entry. -/
theorem construction_tolerates_cache_errors (stC stU : CacheFileState)
    (eC eU : CacheError)
    (hC : cacheError "curated" stC = some eC)
    (hU : cacheError "uncurated" stU = some eU) :
    (initDialog stC stU).curatedList = [] ∧
    (initDialog stC stU).uncuratedList = [] ∧
    ∀ t, GetRepoPath (setPathText (initDialog stC stU) t) = t := by
  refine ⟨?_, ?_, fun t => rfl⟩
  · simpa [initDialog] using loadRepoList_of_cacheError "curated" stC eC hC
  · simpa [initDialog] using loadRepoList_of_cacheError "uncurated" stU eU hU

theorem construction_tolerates_cache_errors_witness :
    (initDialog .missing (.readable .malformed)).curatedList = [] ∧
    (initDialog .missing (.readable .malformed)).uncuratedList = [] ∧
    GetRepoPath (setPathText (initDialog .missing (.readable .malformed))
        "manual/path")
      = "manual/path" := by
  have h := construction_tolerates_cache_errors .missing (.readable .malformed)
    .missingFile .malformedJson rfl rfl
  exact ⟨h.1, h.2.1, h.2.2 "manual/path"⟩

/-- C3: selecting any entry of either repository list writes exactly that
entry's display text into the path field, whatever text the field held
before, and leaves the other list's selection state untouched. -/
theorem selection_updates_path_field (s : DialogState) (i : Nat) :
    (i < s.curatedList.length →
      (selectCurated s i).repoPathText = s.curatedList.getD i "" ∧
      (selectCurated s i).uncuratedSel = s.uncuratedSel) ∧
    (i < s.uncuratedList.length →
      (selectUncurated s i).repoPathText = s.uncuratedList.getD i "" ∧
      (selectUncurated s i).curatedSel = s.curatedSel) :=
  ⟨fun _ => ⟨rfl, rfl⟩, fun _ => ⟨rfl, rfl⟩⟩

theorem selection_updates_path_field_witness :
    (selectCurated ⟨["b"], ["u"], none, some 0, "a"⟩ 0).repoPathText = "b" ∧
    (selectCurated ⟨["b"], ["u"], none, some 0, "a"⟩ 0).uncuratedSel = some 0 :=
  (selection_updates_path_field ⟨["b"], ["u"], none, some 0, "a"⟩ 0).1
    (by decide)

/-- C4: for every recognized platform flag, parsing the flag's canonical
label yields exactly that flag's bit: the string conversion round-trips. -/
theorem platform_string_roundtrip (p : Platform) :
    GetPlatformFromString (GetPlatformString p) = p.flag := by
  cases p <;> rfl

/-- C5: `GetPlatformsFromStringList` is the bitwise union of
`GetPlatformFromString` over the entries, and an unrecognized entry parses
to no bits and leaves the union unchanged (no error is raised: the
function is total). -/
theorem platforms_from_list_union (l : List String) (s : String)
    (h : recognizedPlatformLabel s = false) :
    GetPlatformsFromStringList l
        = (l.map GetPlatformFromString).foldr (fun a b => a ||| b) 0 ∧
    GetPlatformFromString s = 0 ∧
    GetPlatformsFromStringList (s :: l) = GetPlatformsFromStringList l := by
  have hs : GetPlatformFromString s = 0 := by
    simp only [recognizedPlatformLabel, Bool.or_eq_false_iff,
      beq_eq_false_iff_ne, ne_eq, decide_eq_false_iff_not] at h
    obtain ⟨⟨⟨⟨h1, h2⟩, h3⟩, h4⟩, h5⟩ := h
    simp [GetPlatformFromString, h1, h2, h3, h4, h5]
  refine ⟨?_, hs, ?_⟩
  · rw [GetPlatformsFromStringList, foldl_or_eq_acc, Nat.zero_or]
  · simp [GetPlatformsFromStringList, List.foldl_cons, hs]

theorem platforms_from_list_union_witness :
    GetPlatformsFromStringList ["Android", "Windows"]
        = (["Android", "Windows"].map GetPlatformFromString).foldr
            (fun a b => a ||| b) 0 ∧
    GetPlatformFromString "FreeBSD" = 0 ∧
    GetPlatformsFromStringList ("FreeBSD" :: ["Android", "Windows"])
      = GetPlatformsFromStringList ["Android", "Windows"] :=
  platforms_from_list_union ["Android", "Windows"] "FreeBSD" (by decide)

/-- C6: `IsCompatible` returns false exactly when at least one of the two
incompatibility lists is non-empty, and true otherwise. -/
theorem is_compatible_iff (g : GemInfo) :
    IsCompatible g = false ↔
      g.m_incompatibleEngineDependencies ≠ [] ∨
      g.m_incompatibleGemDependencies ≠ [] := by
  cases he : g.m_incompatibleEngineDependencies <;>
    cases hg : g.m_incompatibleGemDependencies <;>
      simp [IsCompatible, he, hg]

/-- C7: for every instance and every combination of platform bits in
`m_platforms`, `IsPlatformSupported p` holds exactly when the bit at `p`'s
position is set in the bitset. -/
theorem is_platform_supported_iff (g : GemInfo) (p : Platform) :
    IsPlatformSupported g p = true ↔ g.m_platforms.testBit p.bitIndex = true := by
  rw [IsPlatformSupported, Platform.flag, Nat.shiftLeft_eq, one_mul,
    bne_iff_ne, ne_eq, Nat.and_two_pow]
  cases hb : g.m_platforms.testBit p.bitIndex <;>
    simp [hb, Nat.pos_iff_ne_zero, pow_ne_zero]

/-- C8: `GetRepoPath` returns the path field's current text verbatim, for
every state of the field, with no trimming or normalization. -/
theorem get_repo_path_verbatim (s : DialogState) (t : String) :
    GetRepoPath (setPathText s t) = t ∧ GetRepoPath s = s.repoPathText :=
  ⟨rfl, rfl⟩

/-- C9: when the expected array field is present, one row is appended per
array element whatever the element's JSON type, so the row count equals the
array length, and a non-string element's row shows the empty string. -/
theorem row_per_element_any_type (fieldName : String)
    (fs : List (String × JsonValue)) (vs : List JsonValue)
    (h : jsonObjectGet fs fieldName = some (.arr vs)) :
    (loadRepoList fieldName (.readable (.wellFormed (.obj fs)))).length
        = vs.length ∧
    ∀ i, i < vs.length → (vs.getD i .null).isStringQt = false →
      (loadRepoList fieldName (.readable (.wellFormed (.obj fs)))).getD i "?"
        = "" := by
  rw [loadRepoList_obj_arr fieldName fs vs h]
  refine ⟨List.length_map .., ?_⟩
  intro i hi hns
  have hv : vs[i]? = some vs[i] := List.getElem?_eq_getElem hi
  have hns2 : (vs[i]).isStringQt = false := by
    rwa [List.getD_eq_getElem?_getD, hv, Option.getD_some] at hns
  simp only [List.getD_eq_getElem?_getD, List.getElem?_map, hv,
    Option.map_some', Option.getD_some]
  exact toStringQt_of_not_string _ hns2

theorem row_per_element_any_type_witness :
    (loadRepoList "curated"
        (.readable (.wellFormed
          (.obj [("curated", .arr [.num 7, .str "x"])])))).length = 2 ∧
    (loadRepoList "curated"
        (.readable (.wellFormed
          (.obj [("curated", .arr [.num 7, .str "x"])])))).getD 0 "?" = "" := by
  have h := row_per_element_any_type "curated"
    [("curated", .arr [.num 7, .str "x"])] [.num 7, .str "x"] rfl
  exact ⟨h.1, h.2 0 (by decide) rfl⟩

/-- C10: a default-constructed `GemInfo` has name "Unknown Gem Name",
origin "Unknown Creator", version "Unknown Version", empty path, origin
category Local, download status unknown, and is not added; in particular
the default name is non-empty. -/
theorem default_gem_info_fields :
    defaultGemInfo.m_name = "Unknown Gem Name" ∧
    defaultGemInfo.m_origin = "Unknown Creator" ∧
    defaultGemInfo.m_version = "Unknown Version" ∧
    defaultGemInfo.m_path = "" ∧
    defaultGemInfo.m_gemOrigin = GemOrigin.Local ∧
    defaultGemInfo.m_downloadStatus = DownloadStatus.UnknownDownloadStatus ∧
    defaultGemInfo.m_isAdded = false ∧
    defaultGemInfo.m_name ≠ "" := by
  refine ⟨rfl, rfl, rfl, rfl, rfl, rfl, rfl, ?_⟩
  decide

end O3DE.ProjectManager
